import Mathlib

/-!
Verification of the corrosion TCP fault-injection proxy.

This file is a shallow embedding of `src/fault_injection.rs` and the
forwarding loop `copy_bidirectional_with_faults` of `src/main.rs`.

Modelling conventions:
* Rust `f64` probabilities and token balances are embedded as `ℚ`; every
  operation the source performs on them (comparison, `clamp`, `min`,
  addition, subtraction, multiplication, division by constants, and the
  truncating `as u64` cast of a non-negative value) is exact on the
  rational values the claims are about.
* The `StdRng` stream is embedded as an explicit oracle `rng : ℕ → ℚ`
  (for `gen_range(0.0..1.0)` draws) together with `rngN : ℕ → ℕ` (for the
  integer `gen_range(min..=max)` draw), consumed at a position counter
  `rng_pos` carried in the injector state.
* `tokio::time::sleep` is not performed; the functions return the
  duration that would be slept (`none` / `0` meaning the sleep statement
  is never reached).
* Wall-clock `Instant` reads are replaced by an oracle of elapsed times,
  one entry per throttling call.
* The `u32` burst counter increment is taken modulo `2 ^ 32`.
-/

/-- Embeds `LatencyConfig` (fault_injection.rs lines 7-13). -/
structure LatencyConfig where
  enabled : Bool
  fixed_ms : ℕ
  random_range : Option (ℕ × ℕ)
  probability : ℚ
deriving Repr, DecidableEq

/-- Embeds `PacketLossConfig` (fault_injection.rs lines 15-21). -/
structure PacketLossConfig where
  enabled : Bool
  probability : ℚ
  burst_size : Option ℕ
  burst_probability : ℚ
deriving Repr, DecidableEq

/-- Embeds `BandwidthConfig` (fault_injection.rs lines 23-28). -/
structure BandwidthConfig where
  enabled : Bool
  limit_bps : ℕ
  burst_size : ℕ
deriving Repr, DecidableEq

/-- Embeds Rust `f64::clamp(lo, hi)` on the rational embedding: the result
is `lo` below `lo`, `hi` above `hi`, and the input itself in between. -/
def clampQ (x lo hi : ℚ) : ℚ :=
  if x < lo then lo else if x > hi then hi else x

/-- Embeds `LatencyConfig::new` (lines 31-43): stores the arguments with
`probability` clamped to [0,1]. -/
def LatencyConfig.new (enabled : Bool) (fixed_ms : ℕ)
    (random_range : Option (ℕ × ℕ)) (probability : ℚ) : LatencyConfig :=
  { enabled := enabled, fixed_ms := fixed_ms, random_range := random_range,
    probability := clampQ probability 0 1 }

/-- Embeds `LatencyConfig::is_disabled` (lines 45-47). -/
def LatencyConfig.is_disabled (c : LatencyConfig) : Bool :=
  !c.enabled || (c.fixed_ms == 0 && c.random_range.isNone)

/-- Embeds `PacketLossConfig::new` (lines 51-63): stores the arguments with
`probability` and `burst_probability` clamped to [0,1]. -/
def PacketLossConfig.new (enabled : Bool) (probability : ℚ)
    (burst_size : Option ℕ) (burst_probability : ℚ) : PacketLossConfig :=
  { enabled := enabled, probability := clampQ probability 0 1,
    burst_size := burst_size,
    burst_probability := clampQ burst_probability 0 1 }

/-- Embeds `PacketLossConfig::is_disabled` (lines 65-67). -/
def PacketLossConfig.is_disabled (c : PacketLossConfig) : Bool :=
  !c.enabled || decide (c.probability = 0)

/-- Embeds `BandwidthConfig::new` (lines 71-77). -/
def BandwidthConfig.new (enabled : Bool) (limit_bps burst_size : ℕ) :
    BandwidthConfig :=
  { enabled := enabled, limit_bps := limit_bps, burst_size := burst_size }

/-- Embeds `BandwidthConfig::is_disabled` (lines 79-81). -/
def BandwidthConfig.is_disabled (c : BandwidthConfig) : Bool :=
  !c.enabled || c.limit_bps == 0

/-- Embeds the mutable `FaultInjector` state (lines 84-94).  The `StdRng`
is replaced by the position `rng_pos` into the oracle streams, and
`last_refill` by the per-call elapsed-time oracle of the forwarding loop. -/
structure FaultInjector where
  latency_config : LatencyConfig
  packet_loss_config : PacketLossConfig
  bandwidth_config : BandwidthConfig
  burst_counter : ℕ
  in_burst_mode : Bool
  bandwidth_tokens : ℚ
  rng_pos : ℕ
deriving Repr, DecidableEq

/-- Embeds `FaultInjector::new` (lines 96-112): zero burst state and a full
token bucket. -/
def FaultInjector.new (lc : LatencyConfig) (plc : PacketLossConfig)
    (bc : BandwidthConfig) : FaultInjector :=
  { latency_config := lc, packet_loss_config := plc, bandwidth_config := bc,
    burst_counter := 0, in_burst_mode := false,
    bandwidth_tokens := (bc.burst_size : ℚ), rng_pos := 0 }

/-- Embeds the regular packet-loss check at the end of
`should_drop_packet` (lines 189-199): draw a roll and drop iff
`roll <= probability`. -/
def regular_loss_check (rng : ℕ → ℚ) (inj : FaultInjector) :
    Bool × FaultInjector :=
  (decide (rng inj.rng_pos ≤ inj.packet_loss_config.probability),
   { inj with rng_pos := inj.rng_pos + 1 })

/-- Embeds `FaultInjector::should_drop_packet` (lines 158-200). -/
def should_drop_packet (rng : ℕ → ℚ) (inj : FaultInjector) :
    Bool × FaultInjector :=
  if inj.packet_loss_config.is_disabled then (false, inj)
  else
    match inj.packet_loss_config.burst_size with
    | some burst_size =>
      if inj.in_burst_mode then
        if (inj.burst_counter + 1) % 2 ^ 32 ≥ burst_size then
          (true, { inj with in_burst_mode := false, burst_counter := 0 })
        else
          (true, { inj with burst_counter := (inj.burst_counter + 1) % 2 ^ 32 })
      else
        if rng inj.rng_pos ≤ inj.packet_loss_config.burst_probability then
          (true, { inj with rng_pos := inj.rng_pos + 1,
                            in_burst_mode := true, burst_counter := 1 })
        else
          regular_loss_check rng { inj with rng_pos := inj.rng_pos + 1 }
    | none => regular_loss_check rng inj

/-- Embeds `FaultInjector::calculate_delay` (lines 142-155): the fixed
delay plus, when a range is configured, an inclusive uniform draw from it
(the oracle value is folded into `[min, max]`). -/
def calculate_delay (rngN : ℕ → ℕ) (inj : FaultInjector) :
    ℕ × FaultInjector :=
  match inj.latency_config.random_range with
  | some (mn, mx) =>
    (inj.latency_config.fixed_ms + (mn + rngN inj.rng_pos % (mx + 1 - mn)),
     { inj with rng_pos := inj.rng_pos + 1 })
  | none => (inj.latency_config.fixed_ms, inj)

/-- Embeds `FaultInjector::apply_latency` (lines 115-140).  The first
component is `some d` exactly when the source reaches
`sleep(Duration::from_millis(d))`, and `none` when no sleep happens. -/
def apply_latency (rng : ℕ → ℚ) (rngN : ℕ → ℕ) (inj : FaultInjector) :
    Option ℕ × FaultInjector :=
  if inj.latency_config.is_disabled then (none, inj)
  else if inj.latency_config.probability < 1 then
    let roll := rng inj.rng_pos
    let inj1 := { inj with rng_pos := inj.rng_pos + 1 }
    if roll > inj.latency_config.probability then (none, inj1)
    else
      let (delay_ms, inj2) := calculate_delay rngN inj1
      (if delay_ms > 0 then some delay_ms else none, inj2)
  else
    let (delay_ms, inj2) := calculate_delay rngN inj
    (if delay_ms > 0 then some delay_ms else none, inj2)

/-- Embeds `FaultInjector::apply_bandwidth_throttling` (lines 203-250) as a
pure function of the bandwidth policy, the current token balance, the
elapsed seconds since the last refill, and the chunk size.  Returns the new
token balance and the computed `delay_ms` (the source sleeps exactly when
that value is positive). -/
def apply_bandwidth_throttling (cfg : BandwidthConfig)
    (tokens elapsed : ℚ) (bytes : ℕ) : ℚ × ℕ :=
  if cfg.is_disabled then (tokens, 0)
  else
    let rate_bytes_per_sec : ℚ := (cfg.limit_bps : ℚ) / 8
    if rate_bytes_per_sec ≤ 0 then (tokens, 0)
    else
      let tokens1 :=
        min (tokens + elapsed * rate_bytes_per_sec) (cfg.burst_size : ℚ)
      let tokens_after_consumption := tokens1 - (bytes : ℚ)
      let delay_ms : ℕ :=
        if tokens_after_consumption < 0 then
          (Int.floor
            ((-tokens_after_consumption) / rate_bytes_per_sec * 1000)).toNat
        else 0
      (tokens1 - (bytes : ℚ), delay_ms)

/-- The two directions of `copy_bidirectional_with_faults`: `a` is the
client→destination arm, `b` the destination→client arm. -/
inductive Side where
  | a
  | b
deriving Repr, DecidableEq

/-- Observable actions of one forwarding iteration, in the order the
source performs them (main.rs lines 224-284). -/
inductive FwdAction where
  | readEof (s : Side)
  | readErr (s : Side) (e : ℕ)
  | dropped (s : Side) (n : ℕ)
  | wrote (s : Side) (n : ℕ)
  | flushed (s : Side)
  | writeErr (s : Side) (e : ℕ)
  | flushErr (s : Side) (e : ℕ)
deriving Repr, DecidableEq

/-- Result of the forwarding loop: the source's `Ok((a_to_b, b_to_a))`,
its `Err(e)`, or still looping when the modelled schedule runs out. -/
inductive Outcome where
  | done (a_to_b b_to_a : ℕ)
  | failed (e : ℕ)
  | running
deriving Repr, DecidableEq

/-- The environment of one forwarding run: the PRNG streams, the two read
streams (`Except.error e` an I/O error, `Except.ok n` a read of `n`
bytes, `n = 0` being EOF), the write/flush results (`some e` an I/O
error), and the elapsed seconds observed by each throttling call. -/
structure Oracles where
  rng : ℕ → ℚ
  rngN : ℕ → ℕ
  readA : ℕ → Except ℕ ℕ
  readB : ℕ → Except ℕ ℕ
  wr : ℕ → Option ℕ
  elapsedO : ℕ → ℚ

/-- The per-connection mutable state of `copy_bidirectional_with_faults`:
the injector, the consumption indices into the oracle streams, the two
byte counters, and the trace of performed actions. -/
structure LoopState where
  inj : FaultInjector
  ia : ℕ
  ib : ℕ
  iw : ℕ
  it : ℕ
  total_a_to_b : ℕ
  total_b_to_a : ℕ
  log : List FwdAction
deriving Repr

/-- The read that fires when side `s` wins the select. -/
def readAt (o : Oracles) (s : Side) (st : LoopState) : Except ℕ ℕ :=
  match s with
  | .a => o.readA st.ia
  | .b => o.readB st.ib

/-- Advance the consumed-read index of side `s`. -/
def bumpRead (s : Side) (st : LoopState) : LoopState :=
  match s with
  | .a => { st with ia := st.ia + 1 }
  | .b => { st with ib := st.ib + 1 }

/-- Add `n` successfully written bytes to the counter of direction `s`
(`total_a_to_b += n` in the A arm, `total_b_to_a += n` in the B arm). -/
def addTotal (s : Side) (n : ℕ) (st : LoopState) : LoopState :=
  match s with
  | .a => { st with total_a_to_b := st.total_a_to_b + n }
  | .b => { st with total_b_to_a := st.total_b_to_a + n }

/-- One iteration of the select loop of `copy_bidirectional_with_faults`
(main.rs lines 224-284) with arm `s` firing: `.inl` continues the loop,
`.inr` leaves it with the source's return value. -/
def copy_step (o : Oracles) (s : Side) (st : LoopState) :
    LoopState ⊕ (Outcome × LoopState) :=
  match readAt o s st with
  | .error e =>
    .inr (.failed e, { bumpRead s st with log := st.log ++ [.readErr s e] })
  | .ok 0 =>
    .inr (.done st.total_a_to_b st.total_b_to_a,
      { bumpRead s st with log := st.log ++ [.readEof s] })
  | .ok (n + 1) =>
    let st1 := bumpRead s st
    let (dropQ, inj1) := should_drop_packet o.rng st1.inj
    let st2 := { st1 with inj := inj1 }
    if dropQ then
      .inl { st2 with log := st2.log ++ [.dropped s (n + 1)] }
    else
      let (_, inj2) := apply_latency o.rng o.rngN st2.inj
      let (tok, _) := apply_bandwidth_throttling inj2.bandwidth_config
        inj2.bandwidth_tokens (o.elapsedO st2.it) (n + 1)
      let st3 := { st2 with inj := { inj2 with bandwidth_tokens := tok },
                            it := st2.it + 1 }
      match o.wr st3.iw with
      | some e =>
        .inr (.failed e,
          { st3 with iw := st3.iw + 1, log := st3.log ++ [.writeErr s e] })
      | none =>
        let st4 := addTotal s (n + 1)
          { st3 with iw := st3.iw + 1, log := st3.log ++ [.wrote s (n + 1)] }
        match o.wr st4.iw with
        | some e =>
          .inr (.failed e,
            { st4 with iw := st4.iw + 1, log := st4.log ++ [.flushErr s e] })
        | none =>
          .inl { st4 with iw := st4.iw + 1, log := st4.log ++ [.flushed s] }

/-- The select loop of `copy_bidirectional_with_faults`, driven by a
finite schedule of which arm fires each iteration. -/
def copy_loop (o : Oracles) : List Side → LoopState → Outcome × LoopState
  | [], st => (.running, st)
  | s :: rest, st =>
    match copy_step o s st with
    | .inl st1 => copy_loop o rest st1
    | .inr r => r

/-- The state at the top of `copy_bidirectional_with_faults`: a fresh
injector (`FaultInjector::new`), zero counters, nothing consumed. -/
def initLoopState (lc : LatencyConfig) (plc : PacketLossConfig)
    (bc : BandwidthConfig) : LoopState :=
  { inj := FaultInjector.new lc plc bc, ia := 0, ib := 0, iw := 0, it := 0,
    total_a_to_b := 0, total_b_to_a := 0, log := [] }

/-- The error carried by an action, when it is one of the three error
actions. -/
def FwdAction.errOf : FwdAction → Option ℕ
  | .readErr _ e => some e
  | .writeErr _ e => some e
  | .flushErr _ e => some e
  | _ => none

/-- Whether an action is a clean end-of-stream read. -/
def FwdAction.isEof : FwdAction → Bool
  | .readEof _ => true
  | _ => false

/-- Bytes successfully written for direction `s` by one action. -/
def sentBytes (s : Side) : FwdAction → ℕ
  | .wrote s1 n => if s1 = s then n else 0
  | _ => 0

/-- Total bytes successfully written for direction `s` in a trace. -/
def logSent (s : Side) (l : List FwdAction) : ℕ :=
  (l.map (sentBytes s)).sum

/-- A trace with no error action. -/
def errFree (l : List FwdAction) : Prop :=
  ∀ act ∈ l, act.errOf = none

/-- A trace with no end-of-stream read. -/
def eofFree (l : List FwdAction) : Prop :=
  ∀ act ∈ l, act.isEof = false

/-- Run `should_drop_packet` a given number of times, collecting the drop
decisions. -/
def drop_run (rng : ℕ → ℚ) (inj : FaultInjector) :
    ℕ → List Bool × FaultInjector
  | 0 => ([], inj)
  | n + 1 =>
    let (b, inj1) := should_drop_packet rng inj
    let (bs, inj2) := drop_run rng inj1 n
    (b :: bs, inj2)

/-- The injector state after a given number of `should_drop_packet`
calls. -/
def iterate_drop (rng : ℕ → ℚ) (inj : FaultInjector) : ℕ → FaultInjector
  | 0 => inj
  | n + 1 => iterate_drop rng (should_drop_packet rng inj).2 n

/-- Claim C8: for each of the three policy types, `is_disabled` returns
true if and only if the `enabled` flag is false or the policy-specific
zero-effect condition holds (no fixed delay and no random range; zero loss
probability; zero bandwidth limit). -/
theorem C8_is_disabled_iff :
    (∀ c : LatencyConfig, c.is_disabled = true ↔
      (c.enabled = false ∨ (c.fixed_ms = 0 ∧ c.random_range = none))) ∧
    (∀ c : PacketLossConfig, c.is_disabled = true ↔
      (c.enabled = false ∨ c.probability = 0)) ∧
    (∀ c : BandwidthConfig, c.is_disabled = true ↔
      (c.enabled = false ∨ c.limit_bps = 0)) := by
  refine ⟨fun c => ?_, fun c => ?_, fun c => ?_⟩ <;>
    simp [LatencyConfig.is_disabled, PacketLossConfig.is_disabled,
      BandwidthConfig.is_disabled, Option.isNone_iff_eq_none,
      Bool.not_eq_true']

/-- Claim C9: every probability argument passed to `LatencyConfig::new` or
`PacketLossConfig::new` (both `probability` and `burst_probability`) is
stored clamped: an argument below 0 becomes 0, above 1 becomes 1, and a
value already in [0,1] is stored unchanged; the stored field is exactly
that clamped value. -/
theorem C9_probability_clamped (e1 e2 : Bool) (f : ℕ)
    (r : Option (ℕ × ℕ)) (bs : Option ℕ) (p q bp : ℚ) :
    (LatencyConfig.new e1 f r p).probability =
      (if p < 0 then 0 else if p > 1 then 1 else p) ∧
    (PacketLossConfig.new e2 q bs bp).probability =
      (if q < 0 then 0 else if q > 1 then 1 else q) ∧
    (PacketLossConfig.new e2 q bs bp).burst_probability =
      (if bp < 0 then 0 else if bp > 1 then 1 else bp) :=
  ⟨rfl, rfl, rfl⟩

/-- Claim C1 (amended): for every enabled loss policy with
`probability ≠ 0` (so the policy is not disabled), `burst_size = some k`
with `k > 0`, and `burst_probability = 1`, every call to
`should_drop_packet` returns true, whatever the burst state and whatever
values in [0,1) the PRNG draws.  (In the S4 instance `probability = 0.0`
makes the policy disabled, so there every call returns false; see the
counterexample.) -/
theorem C1_burst_prob_one_always_drops (inj : FaultInjector)
    (rng : ℕ → ℚ) (k : ℕ)
    (hen : inj.packet_loss_config.enabled = true)
    (hp : inj.packet_loss_config.probability ≠ 0)
    (hbs : inj.packet_loss_config.burst_size = some k)
    (_hk : 0 < k)
    (hbp : inj.packet_loss_config.burst_probability = 1)
    (hrng : ∀ i, 0 ≤ rng i ∧ rng i < 1) :
    (should_drop_packet rng inj).1 = true := by
  have hd : inj.packet_loss_config.is_disabled = false := by
    simp [PacketLossConfig.is_disabled, hen, hp]
  have hroll : rng inj.rng_pos ≤ inj.packet_loss_config.burst_probability := by
    rw [hbp]; exact le_of_lt (hrng inj.rng_pos).2
  rw [should_drop_packet, hd]
  simp only [Bool.false_eq_true, if_false, hbs]
  cases hib : inj.in_burst_mode with
  | true => simp only [if_true]; split <;> rfl
  | false => simp [hroll]

/-- Claim C1 counterexample: the S4 policy (`enabled = true`,
`probability = 0.0`, `burst_size = 3`, `burst_probability = 1.0`) is
disabled because its probability is zero, so `should_drop_packet` returns
false — the chunk is forwarded, not dropped as the claim states. -/
theorem C1_counterexample :
    (should_drop_packet (fun _ => 0)
      (FaultInjector.new (LatencyConfig.new false 0 none 1)
        (PacketLossConfig.new true 0 (some 3) 1)
        (BandwidthConfig.new false 0 8192))).1 = false := by
  simp [should_drop_packet, FaultInjector.new, PacketLossConfig.new,
    PacketLossConfig.is_disabled, clampQ]

/-- Claim C1 witness: a concrete instance of the amended theorem. -/
theorem C1_witness :
    (should_drop_packet (fun _ => 0)
      (FaultInjector.new (LatencyConfig.new false 0 none 1)
        (PacketLossConfig.new true (1/2) (some 3) 1)
        (BandwidthConfig.new false 0 8192))).1 = true := by
  refine C1_burst_prob_one_always_drops _ _ 3 rfl ?_ rfl (by norm_num) ?_
    (fun i => by norm_num)
  · show clampQ (1/2) 0 1 ≠ 0
    norm_num [clampQ]
  · show clampQ 1 0 1 = 1
    norm_num [clampQ]

/-- Claim C7 (amended): `apply_latency` with `probability = 0.0` never
suspends provided the value drawn by the probability gate is positive;
when the gate draws exactly 0 the skip test `roll > probability` fails and
the configured delay is slept (see the counterexample). -/
theorem C7_prob_zero_no_sleep (inj : FaultInjector)
    (rng : ℕ → ℚ) (rngN : ℕ → ℕ)
    (hp : inj.latency_config.probability = 0)
    (hr : 0 < rng inj.rng_pos) :
    (apply_latency rng rngN inj).1 = none := by
  rw [apply_latency]
  split
  · rfl
  · rw [if_pos (by rw [hp]; norm_num), if_pos (by rw [hp]; exact hr)]

/-- Claim C7 counterexample: an enabled latency policy with
`fixed_ms = 100` and `probability = 0.0`, on a gate draw of exactly 0,
reaches the sleep and suspends for 100 ms, contradicting "never
suspends". -/
theorem C7_counterexample :
    (apply_latency (fun _ => 0) (fun _ => 0)
      (FaultInjector.new (LatencyConfig.new true 100 none 0)
        (PacketLossConfig.new false 0 none 0)
        (BandwidthConfig.new false 0 8192))).1 = some 100 := by
  norm_num [apply_latency, calculate_delay, FaultInjector.new,
    LatencyConfig.new, LatencyConfig.is_disabled, clampQ]

/-- Claim C7 witness: a concrete instance of the amended theorem. -/
theorem C7_witness :
    (apply_latency (fun _ => 1/2) (fun _ => 0)
      (FaultInjector.new (LatencyConfig.new true 100 none 0)
        (PacketLossConfig.new false 0 none 0)
        (BandwidthConfig.new false 0 8192))).1 = none := by
  refine C7_prob_zero_no_sleep _ _ _ ?_ (by norm_num)
  show clampQ 0 0 1 = 0
  norm_num [clampQ]

/-- Claim C3: with the bandwidth policy enabled and a positive limit,
`apply_bandwidth_throttling` first refills the bucket to
`min (tokens + elapsed * rate) cap` with `rate = limit_bps / 8` bytes per
second and `cap = burst_size`; when the chunk size exceeds the refilled
balance it sleeps `⌊(n - refilled) / rate * 1000⌋` milliseconds; and it
unconditionally consumes `n` tokens, allowing the balance to go
negative. -/
theorem C3_throttle_spec (cfg : BandwidthConfig) (tokens elapsed : ℚ)
    (n : ℕ) (hen : cfg.enabled = true) (hpos : 0 < cfg.limit_bps) :
    apply_bandwidth_throttling cfg tokens elapsed n =
      (min (tokens + elapsed * ((cfg.limit_bps : ℚ) / 8))
          (cfg.burst_size : ℚ) - (n : ℚ),
       if (n : ℚ) >
            min (tokens + elapsed * ((cfg.limit_bps : ℚ) / 8))
              (cfg.burst_size : ℚ) then
         (Int.floor
           (((n : ℚ) -
              min (tokens + elapsed * ((cfg.limit_bps : ℚ) / 8))
                (cfg.burst_size : ℚ)) /
             ((cfg.limit_bps : ℚ) / 8) * 1000)).toNat
       else 0) := by
  have hd : cfg.is_disabled = false := by
    simp [BandwidthConfig.is_disabled, hen, Nat.pos_iff_ne_zero.mp hpos]
  have hrate : ¬ ((cfg.limit_bps : ℚ) / 8 ≤ 0) := by
    push_neg
    positivity
  rw [apply_bandwidth_throttling, hd]
  simp only [Bool.false_eq_true, if_false, if_neg hrate]
  congr 1
  by_cases h : (n : ℚ) >
      min (tokens + elapsed * ((cfg.limit_bps : ℚ) / 8)) (cfg.burst_size : ℚ)
  · rw [if_pos h, if_pos (sub_neg.mpr h), neg_sub]
  · rw [if_neg h, if_neg (fun hc => h (sub_neg.mp hc))]

/-- Claim C3 witness: the S5 instance — first call with a full bucket of
1024 tokens, zero elapsed time, `limit_bps = 8192`, chunk of 4096 bytes —
sleeps 3000 ms and leaves a debt of 3072 tokens. -/
theorem C3_witness :
    (0 : ℕ) < 8192 ∧
    apply_bandwidth_throttling (BandwidthConfig.new true 8192 1024)
      1024 0 4096 = (-3072, 3000) := by
  refine ⟨by norm_num, ?_⟩
  rw [C3_throttle_spec (BandwidthConfig.new true 8192 1024) 1024 0 4096
    rfl (by decide)]
  norm_num [BandwidthConfig.new]
  rfl

/-- `should_drop_packet` on a disabled loss policy returns false and
leaves the injector untouched. -/
theorem should_drop_disabled (rng : ℕ → ℚ) (inj : FaultInjector)
    (hdis : inj.packet_loss_config.is_disabled = true) :
    should_drop_packet rng inj = (false, inj) := by
  unfold should_drop_packet
  rw [if_pos hdis]

/-- `should_drop_packet` in burst mode: always a drop, no PRNG draw, the
counter is incremented and burst mode exits when it reaches the burst
size. -/
theorem should_drop_in_burst (rng : ℕ → ℚ) (inj : FaultInjector) (k : ℕ)
    (hbs : inj.packet_loss_config.burst_size = some k)
    (hdis : inj.packet_loss_config.is_disabled = false)
    (hib : inj.in_burst_mode = true)
    (hlt : inj.burst_counter + 1 < 2 ^ 32) :
    should_drop_packet rng inj =
      (true,
       if inj.burst_counter + 1 ≥ k then
         { inj with in_burst_mode := false, burst_counter := 0 }
       else
         { inj with burst_counter := inj.burst_counter + 1 }) := by
  unfold should_drop_packet
  rw [if_neg (by simp [hdis])]
  simp only [hbs, hib, if_true, Nat.mod_eq_of_lt hlt]
  split <;> rfl

/-- `should_drop_packet` out of burst mode with a passing entry roll:
enters burst mode with counter 1 and drops. -/
theorem should_drop_entry (rng : ℕ → ℚ) (inj : FaultInjector) (k : ℕ)
    (hbs : inj.packet_loss_config.burst_size = some k)
    (hdis : inj.packet_loss_config.is_disabled = false)
    (hib : inj.in_burst_mode = false)
    (hroll : rng inj.rng_pos ≤ inj.packet_loss_config.burst_probability) :
    should_drop_packet rng inj =
      (true, { inj with rng_pos := inj.rng_pos + 1,
                        in_burst_mode := true, burst_counter := 1 }) := by
  unfold should_drop_packet
  rw [if_neg (by simp [hdis])]
  simp only [hbs, hib, Bool.false_eq_true, if_false, if_pos hroll]

/-- `should_drop_packet` out of burst mode with a failing entry roll:
falls through to the regular loss check on the advanced PRNG position. -/
theorem should_drop_entry_fail (rng : ℕ → ℚ) (inj : FaultInjector) (k : ℕ)
    (hbs : inj.packet_loss_config.burst_size = some k)
    (hdis : inj.packet_loss_config.is_disabled = false)
    (hib : inj.in_burst_mode = false)
    (hroll : ¬ rng inj.rng_pos ≤ inj.packet_loss_config.burst_probability) :
    should_drop_packet rng inj =
      regular_loss_check rng { inj with rng_pos := inj.rng_pos + 1 } := by
  unfold should_drop_packet
  rw [if_neg (by simp [hdis])]
  simp only [hbs, hib, Bool.false_eq_true, if_false, if_neg hroll]

/-- `should_drop_packet` with no burst size configured is exactly the
regular loss check. -/
theorem should_drop_no_burst (rng : ℕ → ℚ) (inj : FaultInjector)
    (hbs : inj.packet_loss_config.burst_size = none)
    (hdis : inj.packet_loss_config.is_disabled = false) :
    should_drop_packet rng inj = regular_loss_check rng inj := by
  unfold should_drop_packet
  rw [if_neg (by simp [hdis])]
  simp only [hbs]

/-- `should_drop_packet` never changes the three policies, the token
balance, or the latency fields; only the burst fields and the PRNG
position move. -/
theorem should_drop_preserves (rng : ℕ → ℚ) (inj : FaultInjector) :
    (should_drop_packet rng inj).2.latency_config = inj.latency_config ∧
    (should_drop_packet rng inj).2.packet_loss_config =
      inj.packet_loss_config ∧
    (should_drop_packet rng inj).2.bandwidth_config =
      inj.bandwidth_config ∧
    (should_drop_packet rng inj).2.bandwidth_tokens =
      inj.bandwidth_tokens := by
  unfold should_drop_packet regular_loss_check
  split
  · exact ⟨rfl, rfl, rfl, rfl⟩
  · split
    · split
      · split <;> exact ⟨rfl, rfl, rfl, rfl⟩
      · split <;> exact ⟨rfl, rfl, rfl, rfl⟩
    · exact ⟨rfl, rfl, rfl, rfl⟩

/-- One `should_drop_packet` call preserves the strengthened burst-state
invariant: in burst mode the counter is at least 1 and either below the
burst size or equal to 1; out of burst mode it is 0. -/
theorem should_drop_burst_inv_step (rng : ℕ → ℚ) (inj : FaultInjector)
    (k : ℕ)
    (hbs : inj.packet_loss_config.burst_size = some k)
    (hk : 1 ≤ k) (hk32 : k < 2 ^ 32)
    (h1 : inj.in_burst_mode = true →
      1 ≤ inj.burst_counter ∧
        (inj.burst_counter < k ∨ inj.burst_counter = 1))
    (h0 : inj.in_burst_mode = false → inj.burst_counter = 0) :
    ((should_drop_packet rng inj).2.in_burst_mode = true →
      1 ≤ (should_drop_packet rng inj).2.burst_counter ∧
        ((should_drop_packet rng inj).2.burst_counter < k ∨
         (should_drop_packet rng inj).2.burst_counter = 1)) ∧
    ((should_drop_packet rng inj).2.in_burst_mode = false →
      (should_drop_packet rng inj).2.burst_counter = 0) := by
  by_cases hdis : inj.packet_loss_config.is_disabled = true
  · rw [should_drop_disabled rng inj hdis]
    exact ⟨h1, h0⟩
  · have hdis' : inj.packet_loss_config.is_disabled = false :=
      Bool.not_eq_true _ ▸ hdis
    cases hib : inj.in_burst_mode with
    | true =>
      obtain ⟨hc1, hck⟩ := h1 hib
      have hlt : inj.burst_counter + 1 < 2 ^ 32 := by omega
      rw [should_drop_in_burst rng inj k hbs hdis' hib hlt]
      dsimp only
      split
      · exact ⟨fun h => absurd h (by simp), fun _ => rfl⟩
      · exact ⟨fun _ => ⟨show 1 ≤ inj.burst_counter + 1 by omega,
          Or.inl (show inj.burst_counter + 1 < k by omega)⟩,
          fun h => absurd (show inj.in_burst_mode = false from h)
            (by simp [hib])⟩
    | false =>
      by_cases hroll :
          rng inj.rng_pos ≤ inj.packet_loss_config.burst_probability
      · rw [should_drop_entry rng inj k hbs hdis' hib hroll]
        exact ⟨fun _ => ⟨le_refl 1, Or.inr rfl⟩, fun h => absurd h (by simp)⟩
      · rw [should_drop_entry_fail rng inj k hbs hdis' hib hroll]
        unfold regular_loss_check
        exact ⟨fun h => absurd (hib ▸ h) (by simp), fun _ => h0 hib⟩

/-- Iterating `should_drop_packet` preserves the loss policy and the
strengthened burst-state invariant. -/
theorem iterate_drop_burst_inv (rng : ℕ → ℚ) (k : ℕ)
    (hk : 1 ≤ k) (hk32 : k < 2 ^ 32) :
    ∀ (n : ℕ) (inj : FaultInjector),
      inj.packet_loss_config.burst_size = some k →
      (inj.in_burst_mode = true →
        1 ≤ inj.burst_counter ∧
          (inj.burst_counter < k ∨ inj.burst_counter = 1)) →
      (inj.in_burst_mode = false → inj.burst_counter = 0) →
      (iterate_drop rng inj n).packet_loss_config =
        inj.packet_loss_config ∧
      ((iterate_drop rng inj n).in_burst_mode = true →
        1 ≤ (iterate_drop rng inj n).burst_counter ∧
          ((iterate_drop rng inj n).burst_counter < k ∨
           (iterate_drop rng inj n).burst_counter = 1)) ∧
      ((iterate_drop rng inj n).in_burst_mode = false →
        (iterate_drop rng inj n).burst_counter = 0) := by
  intro n
  induction n with
  | zero => exact fun inj hbs h1 h0 => ⟨rfl, h1, h0⟩
  | succ m ih =>
    intro inj hbs h1 h0
    have hstep := should_drop_burst_inv_step rng inj k hbs hk hk32 h1 h0
    have hcfg := (should_drop_preserves rng inj).2.1
    have hrec := ih (should_drop_packet rng inj).2 (hcfg ▸ hbs)
      hstep.1 hstep.2
    rw [iterate_drop]
    exact ⟨hrec.1.trans hcfg, hrec.2.1, hrec.2.2⟩

/-- With no burst size configured, one `should_drop_packet` call leaves
both burst fields unchanged. -/
theorem should_drop_no_burst_fields (rng : ℕ → ℚ) (inj : FaultInjector)
    (hbs : inj.packet_loss_config.burst_size = none) :
    (should_drop_packet rng inj).2.in_burst_mode = inj.in_burst_mode ∧
    (should_drop_packet rng inj).2.burst_counter = inj.burst_counter := by
  by_cases hdis : inj.packet_loss_config.is_disabled = true
  · rw [should_drop_disabled rng inj hdis]
    exact ⟨rfl, rfl⟩
  · rw [should_drop_no_burst rng inj hbs (Bool.not_eq_true _ ▸ hdis)]
    exact ⟨rfl, rfl⟩

/-- With no burst size configured, the burst fields never change over any
number of calls. -/
theorem iterate_drop_no_burst (rng : ℕ → ℚ) :
    ∀ (n : ℕ) (inj : FaultInjector),
      inj.packet_loss_config.burst_size = none →
      (iterate_drop rng inj n).in_burst_mode = inj.in_burst_mode ∧
      (iterate_drop rng inj n).burst_counter = inj.burst_counter := by
  intro n
  induction n with
  | zero => exact fun inj _ => ⟨rfl, rfl⟩
  | succ m ih =>
    intro inj hbs
    have hcfg := (should_drop_preserves rng inj).2.1
    have hstep := should_drop_no_burst_fields rng inj hbs
    have hrec := ih (should_drop_packet rng inj).2 (hcfg ▸ hbs)
    rw [iterate_drop]
    exact ⟨hrec.1.trans hstep.1, hrec.2.trans hstep.2⟩

/-- Claim C10: from the initial injector state, with
`burst_size = some k` (`1 ≤ k < 2^32`), after every number of
`should_drop_packet` calls the state satisfies: in burst mode the counter
is between 1 and `k`, and out of burst mode it is 0; with
`burst_size = none` the two burst fields keep their initial values
forever. -/
theorem C10_burst_state_invariant (rng : ℕ → ℚ) (lc : LatencyConfig)
    (bc : BandwidthConfig) (n : ℕ) :
    (∀ (plc : PacketLossConfig) (k : ℕ),
      plc.burst_size = some k → 1 ≤ k → k < 2 ^ 32 →
      ((iterate_drop rng (FaultInjector.new lc plc bc) n).in_burst_mode =
          true →
        1 ≤ (iterate_drop rng (FaultInjector.new lc plc bc) n).burst_counter ∧
        (iterate_drop rng (FaultInjector.new lc plc bc) n).burst_counter ≤ k) ∧
      ((iterate_drop rng (FaultInjector.new lc plc bc) n).in_burst_mode =
          false →
        (iterate_drop rng (FaultInjector.new lc plc bc) n).burst_counter =
          0)) ∧
    (∀ plc : PacketLossConfig, plc.burst_size = none →
      (iterate_drop rng (FaultInjector.new lc plc bc) n).in_burst_mode =
        false ∧
      (iterate_drop rng (FaultInjector.new lc plc bc) n).burst_counter =
        0) := by
  constructor
  · intro plc k hbs hk hk32
    have h := iterate_drop_burst_inv rng k hk hk32 n
      (FaultInjector.new lc plc bc) hbs
      (fun h => absurd h (by simp [FaultInjector.new]))
      (fun _ => rfl)
    refine ⟨fun hb => ?_, h.2.2⟩
    obtain ⟨hc1, hck⟩ := h.2.1 hb
    exact ⟨hc1, by omega⟩
  · intro plc hbs
    exact iterate_drop_no_burst rng n (FaultInjector.new lc plc bc) hbs

/-- From inside burst mode with counter `c` (`1 ≤ c < k`), the next
`k - c` calls all drop without consuming PRNG draws, and the last of them
clears burst mode and resets the counter. -/
theorem drop_run_burst_exit (rng : ℕ → ℚ) (k : ℕ) (hk32 : k < 2 ^ 32) :
    ∀ (m : ℕ) (inj : FaultInjector),
      inj.packet_loss_config.burst_size = some k →
      inj.packet_loss_config.is_disabled = false →
      inj.in_burst_mode = true →
      1 ≤ inj.burst_counter → inj.burst_counter < k →
      m = k - inj.burst_counter →
      drop_run rng inj m =
        (List.replicate m true,
         { inj with in_burst_mode := false, burst_counter := 0 }) := by
  intro m
  induction m with
  | zero => intro inj _ _ _ h1 hik hm; omega
  | succ m' ih =>
    intro inj hbs hdis hib h1 hik hm
    have hlt : inj.burst_counter + 1 < 2 ^ 32 := by omega
    rw [drop_run, should_drop_in_burst rng inj k hbs hdis hib hlt]
    by_cases hexit : inj.burst_counter + 1 ≥ k
    · have hm0 : m' = 0 := by omega
      subst hm0
      rw [if_pos hexit]
      rfl
    · rw [if_neg hexit]
      have hrec := ih { inj with burst_counter := inj.burst_counter + 1 }
        hbs hdis hib
        (show 1 ≤ inj.burst_counter + 1 by omega)
        (show inj.burst_counter + 1 < k by omega)
        (show m' = k - (inj.burst_counter + 1) by omega)
      dsimp only
      rw [hrec]
      rfl

/-- Claim C2 (amended): with an enabled loss policy (`probability ≠ 0`)
and `burst_size = some k` (`1 ≤ k < 2^32`), a burst episode starting from
a clean state drops exactly `max k 2` chunks: the entering call returns
true and sets `(in_burst_mode, burst_counter) = (true, 1)`, the following
`max k 2 − 1` calls all return true without consuming PRNG draws, and the
last of them clears `in_burst_mode` (so the next call re-evaluates burst
entry).  For `k ≥ 2` this is exactly `k` drops per episode as the claim
states; for `k = 1` the episode drops 2 chunks, because the entering call
sets the counter to 1 without the exit check, and only the next call
(counter incremented to 2 before the threshold test) exits. -/
theorem C2_burst_episode (inj : FaultInjector) (rng : ℕ → ℚ) (k : ℕ)
    (hen : inj.packet_loss_config.enabled = true)
    (hp : inj.packet_loss_config.probability ≠ 0)
    (hbs : inj.packet_loss_config.burst_size = some k)
    (hk : 1 ≤ k) (hk32 : k < 2 ^ 32)
    (hib : inj.in_burst_mode = false)
    (hroll : rng inj.rng_pos ≤ inj.packet_loss_config.burst_probability) :
    (should_drop_packet rng inj).1 = true ∧
    (should_drop_packet rng inj).2.in_burst_mode = true ∧
    (should_drop_packet rng inj).2.burst_counter = 1 ∧
    drop_run rng (should_drop_packet rng inj).2 (max k 2 - 1) =
      (List.replicate (max k 2 - 1) true,
       { (should_drop_packet rng inj).2 with
           in_burst_mode := false, burst_counter := 0 }) := by
  have hdis : inj.packet_loss_config.is_disabled = false := by
    simp [PacketLossConfig.is_disabled, hen, hp]
  rw [should_drop_entry rng inj k hbs hdis hib hroll]
  dsimp only
  refine ⟨rfl, rfl, rfl, ?_⟩
  by_cases h2 : 2 ≤ k
  · rw [Nat.max_eq_left h2]
    exact drop_run_burst_exit rng k hk32 (k - 1)
      { inj with rng_pos := inj.rng_pos + 1,
                 in_burst_mode := true, burst_counter := 1 }
      hbs hdis rfl (le_refl 1) (show (1 : ℕ) < k by omega)
      (show k - 1 = k - 1 from rfl)
  · have hk1 : k = 1 := by omega
    subst hk1
    rw [show max 1 2 - 1 = 0 + 1 from rfl, drop_run,
      should_drop_in_burst rng
        { inj with rng_pos := inj.rng_pos + 1,
                   in_burst_mode := true, burst_counter := 1 }
        1 hbs hdis rfl (show (1 : ℕ) + 1 < 2 ^ 32 by norm_num),
      if_pos (show (1 : ℕ) + 1 ≥ 1 by norm_num)]
    rfl

/-- Claim C2 counterexample: with `burst_size = 1` (and
`burst_probability = 1`, `probability = 1/2 > 0`) the entering call — call
number `k = 1` of the episode — returns true but leaves
`in_burst_mode = true` instead of clearing it, and the following call is
again a burst-mode drop: the maximal run of burst-mode drops has length
2, not `k = 1`. -/
theorem C2_counterexample :
    (should_drop_packet (fun _ => 0)
      (FaultInjector.new (LatencyConfig.new false 0 none 1)
        (PacketLossConfig.new true (1/2) (some 1) 1)
        (BandwidthConfig.new false 0 8192))).1 = true ∧
    (should_drop_packet (fun _ => 0)
      (FaultInjector.new (LatencyConfig.new false 0 none 1)
        (PacketLossConfig.new true (1/2) (some 1) 1)
        (BandwidthConfig.new false 0 8192))).2.in_burst_mode = true ∧
    (should_drop_packet (fun _ => 0)
      (should_drop_packet (fun _ => 0)
        (FaultInjector.new (LatencyConfig.new false 0 none 1)
          (PacketLossConfig.new true (1/2) (some 1) 1)
          (BandwidthConfig.new false 0 8192))).2).1 = true ∧
    (should_drop_packet (fun _ => 0)
      (should_drop_packet (fun _ => 0)
        (FaultInjector.new (LatencyConfig.new false 0 none 1)
          (PacketLossConfig.new true (1/2) (some 1) 1)
          (BandwidthConfig.new false 0 8192))).2).2.in_burst_mode =
      false := by
  norm_num [should_drop_packet, regular_loss_check, FaultInjector.new,
    PacketLossConfig.new, PacketLossConfig.is_disabled, clampQ]

/-- Claim C2 witness: a concrete burst episode with `k = 3` — the
entering call drops, and the following two calls are burst-mode drops
after which burst mode is clear. -/
theorem C2_witness :
    (should_drop_packet (fun _ => 0)
      (FaultInjector.new (LatencyConfig.new false 0 none 1)
        (PacketLossConfig.new true (1/2) (some 3) 1)
        (BandwidthConfig.new false 0 8192))).1 = true ∧
    drop_run (fun _ => 0)
      (should_drop_packet (fun _ => 0)
        (FaultInjector.new (LatencyConfig.new false 0 none 1)
          (PacketLossConfig.new true (1/2) (some 3) 1)
          (BandwidthConfig.new false 0 8192))).2 2 =
      (List.replicate 2 true,
       { (should_drop_packet (fun _ => 0)
           (FaultInjector.new (LatencyConfig.new false 0 none 1)
             (PacketLossConfig.new true (1/2) (some 3) 1)
             (BandwidthConfig.new false 0 8192))).2 with
           in_burst_mode := false, burst_counter := 0 }) := by
  have h := C2_burst_episode
    (FaultInjector.new (LatencyConfig.new false 0 none 1)
      (PacketLossConfig.new true (1/2) (some 3) 1)
      (BandwidthConfig.new false 0 8192))
    (fun _ => 0) 3 rfl
    (by norm_num [FaultInjector.new, PacketLossConfig.new, clampQ])
    rfl (by norm_num) (by norm_num) rfl
    (by norm_num [FaultInjector.new, PacketLossConfig.new, clampQ])
  exact ⟨h.1, h.2.2.2⟩

/-- Claim C10 witness: the invariant instantiated after two calls with a
concrete burst-3 policy, and the untouched fields with a burst-free
policy. -/
theorem C10_witness :
    (((iterate_drop (fun _ => 0)
        (FaultInjector.new (LatencyConfig.new false 0 none 1)
          (PacketLossConfig.new true (1/2) (some 3) 1)
          (BandwidthConfig.new false 0 8192)) 2).in_burst_mode = true →
      1 ≤ (iterate_drop (fun _ => 0)
        (FaultInjector.new (LatencyConfig.new false 0 none 1)
          (PacketLossConfig.new true (1/2) (some 3) 1)
          (BandwidthConfig.new false 0 8192)) 2).burst_counter ∧
      (iterate_drop (fun _ => 0)
        (FaultInjector.new (LatencyConfig.new false 0 none 1)
          (PacketLossConfig.new true (1/2) (some 3) 1)
          (BandwidthConfig.new false 0 8192)) 2).burst_counter ≤ 3) ∧
     ((iterate_drop (fun _ => 0)
        (FaultInjector.new (LatencyConfig.new false 0 none 1)
          (PacketLossConfig.new true (1/2) (some 3) 1)
          (BandwidthConfig.new false 0 8192)) 2).in_burst_mode = false →
      (iterate_drop (fun _ => 0)
        (FaultInjector.new (LatencyConfig.new false 0 none 1)
          (PacketLossConfig.new true (1/2) (some 3) 1)
          (BandwidthConfig.new false 0 8192)) 2).burst_counter = 0)) ∧
    ((iterate_drop (fun _ => 0)
        (FaultInjector.new (LatencyConfig.new false 0 none 1)
          (PacketLossConfig.new true (1/2) none 0)
          (BandwidthConfig.new false 0 8192)) 2).in_burst_mode = false ∧
     (iterate_drop (fun _ => 0)
        (FaultInjector.new (LatencyConfig.new false 0 none 1)
          (PacketLossConfig.new true (1/2) none 0)
          (BandwidthConfig.new false 0 8192)) 2).burst_counter = 0) :=
  ⟨(C10_burst_state_invariant (fun _ => 0)
      (LatencyConfig.new false 0 none 1)
      (BandwidthConfig.new false 0 8192) 2).1
    (PacketLossConfig.new true (1/2) (some 3) 1) 3 rfl
    (by norm_num) (by norm_num),
   (C10_burst_state_invariant (fun _ => 0)
      (LatencyConfig.new false 0 none 1)
      (BandwidthConfig.new false 0 8192) 2).2
    (PacketLossConfig.new true (1/2) none 0) rfl⟩

/-- Claim C6 (amended): the drop decision is determined by the shared
injector's loss policy, burst fields, and PRNG position alone — two calls
with those components equal decide alike, whatever the rest of the state.
The unconditional cross-direction independence the claim states is false:
a chunk read and dropped in the A→B direction advances the shared PRNG
(and can change the burst fields), which can flip the decision for the
next B→A chunk (see the counterexample). -/
theorem C6_drop_decision_state_determined (rng : ℕ → ℚ)
    (inj1 inj2 : FaultInjector)
    (hcfg : inj1.packet_loss_config = inj2.packet_loss_config)
    (hib : inj1.in_burst_mode = inj2.in_burst_mode)
    (hcnt : inj1.burst_counter = inj2.burst_counter)
    (hpos : inj1.rng_pos = inj2.rng_pos) :
    (should_drop_packet rng inj1).1 = (should_drop_packet rng inj2).1 := by
  unfold should_drop_packet regular_loss_check
  rw [hcfg, hib, hcnt, hpos]
  split
  · rfl
  · split
    · split
      · split <;> rfl
      · split <;> rfl
    · rfl

/-- Claim C6 counterexample: with loss probability 1/2 and PRNG draws
0, 9/10, …, the first B→A chunk is dropped when it is the first chunk
processed, but forwarded when an A→B chunk was previously read and
dropped — the drop in one direction changes the other direction's
decision through the shared PRNG. -/
theorem C6_counterexample :
    (copy_loop
      ⟨fun i => if i = 0 then 0 else 9/10, fun _ => 0,
       fun _ => Except.ok 7, fun _ => Except.ok 5,
       fun _ => none, fun _ => 0⟩
      [Side.b]
      (initLoopState (LatencyConfig.new false 0 none 1)
        (PacketLossConfig.new true (1/2) none 0)
        (BandwidthConfig.new false 0 8192))).2.log =
      [FwdAction.dropped Side.b 5] ∧
    (copy_loop
      ⟨fun i => if i = 0 then 0 else 9/10, fun _ => 0,
       fun _ => Except.ok 7, fun _ => Except.ok 5,
       fun _ => none, fun _ => 0⟩
      [Side.a, Side.b]
      (initLoopState (LatencyConfig.new false 0 none 1)
        (PacketLossConfig.new true (1/2) none 0)
        (BandwidthConfig.new false 0 8192))).2.log =
      [FwdAction.dropped Side.a 7, FwdAction.wrote Side.b 5,
       FwdAction.flushed Side.b] := by
  norm_num [copy_loop, copy_step, readAt, bumpRead, addTotal,
    should_drop_packet, regular_loss_check, apply_latency,
    apply_bandwidth_throttling, calculate_delay, FaultInjector.new,
    initLoopState, LatencyConfig.new, PacketLossConfig.new,
    BandwidthConfig.new, LatencyConfig.is_disabled,
    PacketLossConfig.is_disabled, BandwidthConfig.is_disabled, clampQ]

/-- Claim C6 witness: two injectors agreeing on the loss policy, burst
fields and PRNG position but differing in their latency policy and token
balance decide alike. -/
theorem C6_witness :
    (should_drop_packet (fun _ => 0)
      (FaultInjector.new (LatencyConfig.new false 0 none 1)
        (PacketLossConfig.new true (1/2) none 0)
        (BandwidthConfig.new false 0 8192))).1 =
    (should_drop_packet (fun _ => 0)
      (FaultInjector.new (LatencyConfig.new true 100 none 1)
        (PacketLossConfig.new true (1/2) none 0)
        (BandwidthConfig.new true 8192 1024))).1 :=
  C6_drop_decision_state_determined (fun _ => 0) _ _ rfl rfl rfl rfl

/-- `bumpRead` changes only the read index of its side. -/
@[simp] theorem bumpRead_fields (s : Side) (st : LoopState) :
    (bumpRead s st).inj = st.inj ∧ (bumpRead s st).iw = st.iw ∧
    (bumpRead s st).it = st.it ∧
    (bumpRead s st).total_a_to_b = st.total_a_to_b ∧
    (bumpRead s st).total_b_to_a = st.total_b_to_a ∧
    (bumpRead s st).log = st.log := by
  cases s <;> exact ⟨rfl, rfl, rfl, rfl, rfl, rfl⟩

/-- `addTotal` changes only the byte counters. -/
@[simp] theorem addTotal_fields (s : Side) (n : ℕ) (st : LoopState) :
    (addTotal s n st).inj = st.inj ∧ (addTotal s n st).log = st.log ∧
    (addTotal s n st).iw = st.iw ∧ (addTotal s n st).it = st.it := by
  cases s <;> exact ⟨rfl, rfl, rfl, rfl⟩

/-- With an enabled loss policy of probability 1 and no burst size, every
chunk is dropped (every roll in [0,1) satisfies `roll ≤ 1`). -/
theorem should_drop_prob_one (rng : ℕ → ℚ) (inj : FaultInjector)
    (hen : inj.packet_loss_config.enabled = true)
    (hp1 : inj.packet_loss_config.probability = 1)
    (hbs : inj.packet_loss_config.burst_size = none)
    (hr : rng inj.rng_pos ≤ 1) :
    (should_drop_packet rng inj).1 = true := by
  have hdis : inj.packet_loss_config.is_disabled = false := by
    simp [PacketLossConfig.is_disabled, hen, hp1]
  rw [should_drop_no_burst rng inj hbs hdis]
  unfold regular_loss_check
  simpa [hp1] using hr

/-- Step shape: a read error terminates the loop with that error,
appending only the error action. -/
theorem copy_step_read_error (o : Oracles) (s : Side) (st : LoopState)
    (e : ℕ) (hr : readAt o s st = Except.error e) :
    copy_step o s st = Sum.inr (Outcome.failed e,
      { bumpRead s st with
          log := st.log ++ [FwdAction.readErr s e] }) := by
  unfold copy_step
  rw [hr]

/-- Step shape: a zero-byte read terminates the loop with the current
counters, appending only the EOF action. -/
theorem copy_step_read_eof (o : Oracles) (s : Side) (st : LoopState)
    (hr : readAt o s st = Except.ok 0) :
    copy_step o s st = Sum.inr
      (Outcome.done st.total_a_to_b st.total_b_to_a,
       { bumpRead s st with
           log := st.log ++ [FwdAction.readEof s] }) := by
  unfold copy_step
  rw [hr]

/-- Step shape: a dropped chunk resumes the loop at once — the injector
is exactly the post-`should_drop_packet` injector (no latency draw, no
token change, no write or flush attempted, counters untouched) and the
trace gains only the drop action. -/
theorem copy_step_dropped (o : Oracles) (s : Side) (st : LoopState)
    (n : ℕ) (inj1 : FaultInjector)
    (hr : readAt o s st = Except.ok (n + 1))
    (hsd : should_drop_packet o.rng st.inj = (true, inj1)) :
    copy_step o s st = Sum.inl
      { bumpRead s st with
          inj := inj1,
          log := st.log ++ [FwdAction.dropped s (n + 1)] } := by
  have hb : (bumpRead s st).inj = st.inj := (bumpRead_fields s st).1
  unfold copy_step
  rw [hr]
  simp only [hb, hsd, if_true, bumpRead_fields]

/-- Step shape: a forwarded chunk whose `write_all` fails terminates with
the write error; latency and throttling have already updated the
injector. -/
theorem copy_step_write_error (o : Oracles) (s : Side) (st : LoopState)
    (n : ℕ) (inj1 : FaultInjector) (e : ℕ)
    (hr : readAt o s st = Except.ok (n + 1))
    (hsd : should_drop_packet o.rng st.inj = (false, inj1))
    (hw : o.wr st.iw = some e) :
    copy_step o s st = Sum.inr (Outcome.failed e,
      { bumpRead s st with
          inj := { (apply_latency o.rng o.rngN inj1).2 with
            bandwidth_tokens :=
              (apply_bandwidth_throttling
                (apply_latency o.rng o.rngN inj1).2.bandwidth_config
                (apply_latency o.rng o.rngN inj1).2.bandwidth_tokens
                (o.elapsedO st.it) (n + 1)).1 },
          it := st.it + 1, iw := st.iw + 1,
          log := st.log ++ [FwdAction.writeErr s e] }) := by
  have hb : (bumpRead s st).inj = st.inj := (bumpRead_fields s st).1
  unfold copy_step
  rw [hr]
  simp only [hb, hsd, Bool.false_eq_true, if_false, bumpRead_fields, hw]

/-- Step shape: a forwarded chunk whose `write_all` succeeds but whose
flush fails terminates with the flush error; the byte counter has already
been incremented. -/
theorem copy_step_flush_error (o : Oracles) (s : Side) (st : LoopState)
    (n : ℕ) (inj1 : FaultInjector) (e : ℕ)
    (hr : readAt o s st = Except.ok (n + 1))
    (hsd : should_drop_packet o.rng st.inj = (false, inj1))
    (hw : o.wr st.iw = none) (hf : o.wr (st.iw + 1) = some e) :
    copy_step o s st = Sum.inr (Outcome.failed e,
      addTotal s (n + 1)
        { bumpRead s st with
            inj := { (apply_latency o.rng o.rngN inj1).2 with
              bandwidth_tokens :=
                (apply_bandwidth_throttling
                  (apply_latency o.rng o.rngN inj1).2.bandwidth_config
                  (apply_latency o.rng o.rngN inj1).2.bandwidth_tokens
                  (o.elapsedO st.it) (n + 1)).1 },
            it := st.it + 1, iw := st.iw + 1 + 1,
            log := st.log ++
              [FwdAction.wrote s (n + 1), FwdAction.flushErr s e] }) := by
  cases s <;>
    simp [copy_step, readAt, bumpRead, addTotal, hr, hsd, hw, hf] at hr ⊢ <;>
    simp [hr, hsd, hw, hf]

/-- Step shape: a fully forwarded chunk (write and flush both succeed)
resumes the loop with the byte counter of its direction increased by the
chunk size and the trace extended by the write and flush actions. -/
theorem copy_step_forward (o : Oracles) (s : Side) (st : LoopState)
    (n : ℕ) (inj1 : FaultInjector)
    (hr : readAt o s st = Except.ok (n + 1))
    (hsd : should_drop_packet o.rng st.inj = (false, inj1))
    (hw : o.wr st.iw = none) (hf : o.wr (st.iw + 1) = none) :
    copy_step o s st = Sum.inl
      (addTotal s (n + 1)
        { bumpRead s st with
            inj := { (apply_latency o.rng o.rngN inj1).2 with
              bandwidth_tokens :=
                (apply_bandwidth_throttling
                  (apply_latency o.rng o.rngN inj1).2.bandwidth_config
                  (apply_latency o.rng o.rngN inj1).2.bandwidth_tokens
                  (o.elapsedO st.it) (n + 1)).1 },
            it := st.it + 1, iw := st.iw + 1 + 1,
            log := st.log ++
              [FwdAction.wrote s (n + 1), FwdAction.flushed s] }) := by
  cases s <;>
    simp [copy_step, readAt, bumpRead, addTotal, hr, hsd, hw, hf] at hr ⊢ <;>
    simp [hr, hsd, hw, hf]

/-- `logSent` distributes over trace concatenation. -/
@[simp] theorem logSent_append (s : Side) (l1 l2 : List FwdAction) :
    logSent s (l1 ++ l2) = logSent s l1 + logSent s l2 := by
  simp [logSent]

/-- A concatenated trace is error-free iff both halves are. -/
theorem errFree_append (l1 l2 : List FwdAction) :
    errFree (l1 ++ l2) ↔ errFree l1 ∧ errFree l2 := by
  simp [errFree, List.mem_append, or_imp, forall_and]

/-- A concatenated trace is EOF-free iff both halves are. -/
theorem eofFree_append (l1 l2 : List FwdAction) :
    eofFree (l1 ++ l2) ↔ eofFree l1 ∧ eofFree l2 := by
  simp [eofFree, List.mem_append, or_imp, forall_and]

/-- Last element of a trace extended by two actions. -/
theorem getLast_append_pair {α : Type} (l : List α) (x y : α) :
    (l ++ [x, y]).getLast? = some y := by
  rw [show l ++ [x, y] = (l ++ [x]) ++ [y] by simp]
  exact List.getLast?_concat _

/-- Dropping the last element of a trace extended by two actions. -/
theorem dropLast_append_pair {α : Type} (l : List α) (x y : α) :
    (l ++ [x, y]).dropLast = l ++ [x] := by
  rw [show l ++ [x, y] = (l ++ [x]) ++ [y] by simp]
  simp

/-- The log-trace specification of the forwarding loop, generalized over
any starting state whose counters agree with its trace and whose trace is
free of terminal actions: a `done` outcome means the last action is a
clean EOF and the returned counters are the per-direction sums of
successfully written bytes; a `failed e` outcome means the last action is
an error action carrying exactly `e` and no earlier action is an error
or an EOF; a still-running loop has neither errors nor EOFs in its
trace. -/
theorem copy_loop_log_spec (o : Oracles) :
    ∀ (sch : List Side) (st : LoopState),
      st.total_a_to_b = logSent Side.a st.log →
      st.total_b_to_a = logSent Side.b st.log →
      errFree st.log → eofFree st.log →
      (∀ a b, (copy_loop o sch st).1 = Outcome.done a b →
        a = logSent Side.a (copy_loop o sch st).2.log ∧
        b = logSent Side.b (copy_loop o sch st).2.log ∧
        (∃ s, (copy_loop o sch st).2.log.getLast? =
          some (FwdAction.readEof s)) ∧
        errFree (copy_loop o sch st).2.log) ∧
      (∀ e, (copy_loop o sch st).1 = Outcome.failed e →
        (∃ act, (copy_loop o sch st).2.log.getLast? = some act ∧
          act.errOf = some e) ∧
        errFree (copy_loop o sch st).2.log.dropLast ∧
        eofFree (copy_loop o sch st).2.log) ∧
      ((copy_loop o sch st).1 = Outcome.running →
        errFree (copy_loop o sch st).2.log ∧
        eofFree (copy_loop o sch st).2.log) := by
  intro sch
  induction sch with
  | nil =>
    intro st ha hb he hf
    refine ⟨fun a b hab => ?_, fun e hee => ?_, fun _ => ⟨he, hf⟩⟩
    · simp [copy_loop] at hab
    · simp [copy_loop] at hee
  | cons s rest ih =>
    intro st ha hb he hf
    rcases hr : readAt o s st with e | n
    · have hstep := copy_step_read_error o s st e hr
      simp only [copy_loop, hstep, bumpRead_fields]
      refine ⟨fun a b hab => ?_, fun e' he' => ?_, fun hrun => ?_⟩
      · simp at hab
      · simp only [Outcome.failed.injEq] at he'
        subst he'
        refine ⟨⟨FwdAction.readErr s e, List.getLast?_concat _, rfl⟩,
          ?_, ?_⟩
        · simpa using he
        · exact (eofFree_append _ _).mpr
            ⟨hf, by simp [eofFree, FwdAction.isEof]⟩
      · simp at hrun
    · cases n with
      | zero =>
        have hstep := copy_step_read_eof o s st hr
        simp only [copy_loop, hstep, bumpRead_fields]
        refine ⟨fun a b hab => ?_, fun e' he' => ?_, fun hrun => ?_⟩
        · simp only [Outcome.done.injEq] at hab
          obtain ⟨h1, h2⟩ := hab
          subst h1
          subst h2
          refine ⟨?_, ?_, ⟨s, List.getLast?_concat _⟩, ?_⟩
          · simp [logSent, sentBytes, ha]
          · simp [logSent, sentBytes, hb]
          · exact (errFree_append _ _).mpr
              ⟨he, by simp [errFree, FwdAction.errOf]⟩
        · simp at he'
        · simp at hrun
      | succ m =>
        rcases hsd : should_drop_packet o.rng st.inj with ⟨dq, inj1⟩
        cases dq with
        | true =>
          have hstep := copy_step_dropped o s st m inj1 hr hsd
          simp only [copy_loop, hstep]
          apply ih
          · simp [bumpRead_fields, logSent, sentBytes, ha]
          · simp [bumpRead_fields, logSent, sentBytes, hb]
          · exact (errFree_append _ _).mpr
              ⟨he, by simp [errFree, FwdAction.errOf]⟩
          · exact (eofFree_append _ _).mpr
              ⟨hf, by simp [eofFree, FwdAction.isEof]⟩
        | false =>
          rcases hw : o.wr st.iw with _ | e
          · rcases hff : o.wr (st.iw + 1) with _ | e
            · have hstep := copy_step_forward o s st m inj1 hr hsd hw hff
              simp only [copy_loop, hstep]
              apply ih
              · cases s <;>
                  simp [bumpRead, addTotal, logSent, sentBytes, ha]
              · cases s <;>
                  simp [bumpRead, addTotal, logSent, sentBytes, hb]
              · cases s <;>
                  exact (errFree_append _ _).mpr
                    ⟨he, by simp [errFree, FwdAction.errOf]⟩
              · cases s <;>
                  exact (eofFree_append _ _).mpr
                    ⟨hf, by simp [eofFree, FwdAction.isEof]⟩
            · have hstep := copy_step_flush_error o s st m inj1 e hr hsd
                hw hff
              simp only [copy_loop, hstep]
              refine ⟨fun a b hab => ?_, fun e' he' => ?_,
                fun hrun => ?_⟩
              · cases s <;> simp [addTotal] at hab
              · have hlog : (addTotal s (m + 1)
                    { bumpRead s st with
                        inj := { (apply_latency o.rng o.rngN inj1).2 with
                          bandwidth_tokens :=
                            (apply_bandwidth_throttling
                              (apply_latency o.rng o.rngN
                                inj1).2.bandwidth_config
                              (apply_latency o.rng o.rngN
                                inj1).2.bandwidth_tokens
                              (o.elapsedO st.it) (m + 1)).1 },
                        it := st.it + 1, iw := st.iw + 1 + 1,
                        log := st.log ++
                          [FwdAction.wrote s (m + 1),
                           FwdAction.flushErr s e] }).log =
                    st.log ++ [FwdAction.wrote s (m + 1),
                      FwdAction.flushErr s e] := by
                  cases s <;> simp [addTotal, bumpRead]
                have he'2 : e' = e := by
                  cases s <;> simp [addTotal] at he' <;> omega
                subst he'2
                rw [hlog]
                refine ⟨⟨FwdAction.flushErr s e',
                  getLast_append_pair _ _ _, rfl⟩, ?_, ?_⟩
                · rw [dropLast_append_pair]
                  exact (errFree_append _ _).mpr
                    ⟨he, by simp [errFree, FwdAction.errOf]⟩
                · exact (eofFree_append _ _).mpr
                    ⟨hf, by simp [eofFree, FwdAction.isEof]⟩
              · cases s <;> simp [addTotal] at hrun
          · have hstep := copy_step_write_error o s st m inj1 e hr hsd hw
            simp only [copy_loop, hstep, bumpRead_fields]
            refine ⟨fun a b hab => ?_, fun e' he' => ?_, fun hrun => ?_⟩
            · simp at hab
            · simp only [Outcome.failed.injEq] at he'
              subst he'
              refine ⟨⟨FwdAction.writeErr s e, List.getLast?_concat _,
                rfl⟩, ?_, ?_⟩
              · simpa using he
              · exact (eofFree_append _ _).mpr
                  ⟨hf, by simp [eofFree, FwdAction.isEof]⟩
            · simp at hrun

/-- Under an enabled probability-1 loss policy with no burst size, the
forwarding loop never writes: the byte counters never move and the trace
gains no `wrote` action; a `done` outcome reports the starting
counters. -/
theorem copy_loop_drops_all (plc : PacketLossConfig) (o : Oracles)
    (hen : plc.enabled = true) (hp1 : plc.probability = 1)
    (hbs : plc.burst_size = none) (hrng : ∀ i, o.rng i ≤ 1) :
    ∀ (sch : List Side) (st : LoopState),
      st.inj.packet_loss_config = plc →
      (∀ a b, (copy_loop o sch st).1 = Outcome.done a b →
        a = st.total_a_to_b ∧ b = st.total_b_to_a) ∧
      ∀ act ∈ (copy_loop o sch st).2.log,
        act ∈ st.log ∨ ∀ s n, act ≠ FwdAction.wrote s n := by
  intro sch
  induction sch with
  | nil =>
    intro st _
    exact ⟨by simp [copy_loop], fun act hact => Or.inl hact⟩
  | cons s rest ih =>
    intro st hcfg
    rcases hr : readAt o s st with e | n
    · have hstep := copy_step_read_error o s st e hr
      simp only [copy_loop, hstep, bumpRead_fields]
      refine ⟨fun a b hab => by simp at hab, fun act hact => ?_⟩
      rcases List.mem_append.mp hact with h | h
      · exact Or.inl h
      · simp only [List.mem_singleton] at h
        subst h
        exact Or.inr fun s n h2 => nomatch h2
    · cases n with
      | zero =>
        have hstep := copy_step_read_eof o s st hr
        simp only [copy_loop, hstep, bumpRead_fields]
        refine ⟨fun a b hab => ?_, fun act hact => ?_⟩
        · simp only [Outcome.done.injEq] at hab
          exact ⟨hab.1.symm, hab.2.symm⟩
        · rcases List.mem_append.mp hact with h | h
          · exact Or.inl h
          · simp only [List.mem_singleton] at h
            subst h
            exact Or.inr fun s n h2 => nomatch h2
      | succ m =>
        have hdrop : (should_drop_packet o.rng st.inj).1 = true :=
          should_drop_prob_one o.rng st.inj (by rw [hcfg]; exact hen)
            (by rw [hcfg]; exact hp1) (by rw [hcfg]; exact hbs)
            (hrng st.inj.rng_pos)
        rcases hsd : should_drop_packet o.rng st.inj with ⟨dq, inj1⟩
        have hdq : dq = true := by rw [hsd] at hdrop; exact hdrop
        subst hdq
        have hcfg1 : inj1.packet_loss_config = plc := by
          have h2 := (should_drop_preserves o.rng st.inj).2.1
          rw [hsd] at h2
          exact h2.trans hcfg
        have hstep := copy_step_dropped o s st m inj1 hr hsd
        simp only [copy_loop, hstep]
        have hrec := ih
          { bumpRead s st with
              inj := inj1,
              log := st.log ++ [FwdAction.dropped s (m + 1)] }
          (by simpa using hcfg1)
        refine ⟨fun a b hab => ?_, fun act hact => ?_⟩
        · have h3 := hrec.1 a b hab
          simpa using h3
        · rcases hrec.2 act hact with h | h
          · simp only [bumpRead_fields] at h
            rcases List.mem_append.mp h with h2 | h2
            · exact Or.inl h2
            · simp only [List.mem_singleton] at h2
              subst h2
              exact Or.inr fun s n h3 => nomatch h3
          · exact Or.inr h

/-- Claim C4: a chunk of `n > 0` bytes for which `should_drop_packet`
returns true is discarded: the loop resumes at once with only the read
index advanced, the injector exactly as `should_drop_packet` left it (so
`apply_latency` and `apply_bandwidth_throttling` are not invoked and no
further PRNG draw or token change happens), no write or flush is
attempted, and neither byte counter changes.  `should_drop_packet` itself
never touches the token balance.  Consequently, under an enabled loss
policy with probability 1 and no burst size, no `wrote` action ever
appears in the trace and a clean close returns counters `(0, 0)`. -/
theorem C4_dropped_chunk_no_work :
    (∀ (o : Oracles) (s : Side) (st : LoopState) (n : ℕ)
        (inj1 : FaultInjector),
      readAt o s st = Except.ok (n + 1) →
      should_drop_packet o.rng st.inj = (true, inj1) →
      copy_step o s st = Sum.inl
        { bumpRead s st with
            inj := inj1,
            log := st.log ++ [FwdAction.dropped s (n + 1)] }) ∧
    (∀ (rng : ℕ → ℚ) (inj : FaultInjector),
      (should_drop_packet rng inj).2.bandwidth_tokens =
        inj.bandwidth_tokens) ∧
    (∀ (lc : LatencyConfig) (plc : PacketLossConfig)
        (bc : BandwidthConfig) (o : Oracles) (sch : List Side),
      plc.enabled = true → plc.probability = 1 → plc.burst_size = none →
      (∀ i, o.rng i ≤ 1) →
      (∀ a b,
        (copy_loop o sch (initLoopState lc plc bc)).1 =
          Outcome.done a b → a = 0 ∧ b = 0) ∧
      ∀ s n, FwdAction.wrote s n ∉
        (copy_loop o sch (initLoopState lc plc bc)).2.log) := by
  refine ⟨copy_step_dropped,
    fun rng inj => (should_drop_preserves rng inj).2.2.2,
    fun lc plc bc o sch hen hp1 hbs hrng => ?_⟩
  have h := copy_loop_drops_all plc o hen hp1 hbs hrng sch
    (initLoopState lc plc bc) rfl
  refine ⟨fun a b hab => h.1 a b hab, fun s n hmem => ?_⟩
  rcases h.2 _ hmem with h2 | h2
  · simp [initLoopState] at h2
  · exact h2 s n rfl

/-- Claim C4 witness: with total loss (probability 1) and a client that
sends one chunk then closes, the loop forwards nothing. -/
theorem C4_witness :
    FwdAction.wrote Side.a 1 ∉
      (copy_loop
        ⟨fun _ => 0, fun _ => 0,
         fun i => if i = 0 then Except.ok 1 else Except.ok 0,
         fun _ => Except.ok 0, fun _ => none, fun _ => 0⟩
        [Side.a, Side.a]
        (initLoopState (LatencyConfig.new false 0 none 1)
          (PacketLossConfig.new true 1 none 0)
          (BandwidthConfig.new false 0 8192))).2.log :=
  (C4_dropped_chunk_no_work.2.2 (LatencyConfig.new false 0 none 1)
    (PacketLossConfig.new true 1 none 0)
    (BandwidthConfig.new false 0 8192) _ [Side.a, Side.a] rfl
    (by norm_num [PacketLossConfig.new, clampQ]) rfl
    (fun i => by norm_num)).2 Side.a 1

/-- Claim C5: from the initial state, the forwarding loop returns
`Ok((a_to_b, b_to_a))` exactly on a clean zero-byte read — the last trace
action is an EOF, no error occurred, and the returned counters are the
per-direction sums of successfully written bytes; it returns `Err(e)`
exactly when the first error produced by a read, a `write_all`, or a
flush is `e`, propagated unmodified (the last trace action carries `e`,
nothing before it is an error, and no EOF was seen); while neither has
happened the trace has no error and no EOF. -/
theorem C5_loop_return_spec (o : Oracles) (sch : List Side)
    (lc : LatencyConfig) (plc : PacketLossConfig)
    (bc : BandwidthConfig) :
    (∀ a b,
      (copy_loop o sch (initLoopState lc plc bc)).1 = Outcome.done a b →
      a = logSent Side.a (copy_loop o sch (initLoopState lc plc bc)).2.log ∧
      b = logSent Side.b (copy_loop o sch (initLoopState lc plc bc)).2.log ∧
      (∃ s, (copy_loop o sch (initLoopState lc plc bc)).2.log.getLast? =
        some (FwdAction.readEof s)) ∧
      errFree (copy_loop o sch (initLoopState lc plc bc)).2.log) ∧
    (∀ e,
      (copy_loop o sch (initLoopState lc plc bc)).1 = Outcome.failed e →
      (∃ act,
        (copy_loop o sch (initLoopState lc plc bc)).2.log.getLast? =
          some act ∧ act.errOf = some e) ∧
      errFree (copy_loop o sch (initLoopState lc plc bc)).2.log.dropLast ∧
      eofFree (copy_loop o sch (initLoopState lc plc bc)).2.log) ∧
    ((copy_loop o sch (initLoopState lc plc bc)).1 = Outcome.running →
      errFree (copy_loop o sch (initLoopState lc plc bc)).2.log ∧
      eofFree (copy_loop o sch (initLoopState lc plc bc)).2.log) :=
  copy_loop_log_spec o sch (initLoopState lc plc bc) rfl rfl
    (fun _act hact => nomatch hact) (fun _act hact => nomatch hact)

/-- Claim C5 witness: a run in which the client sends one 5-byte chunk
(forwarded, loss disabled) and then closes — the loop returns `done`
with counters `(5, 0)` equal to the written bytes, the trace ends on the
EOF action, and no error occurred. -/
theorem C5_witness :
    5 = logSent Side.a (copy_loop
      ⟨fun _ => 1, fun _ => 0,
       fun i => if i = 0 then Except.ok 5 else Except.ok 0,
       fun _ => Except.ok 0, fun _ => none, fun _ => 0⟩
      [Side.a, Side.a]
      (initLoopState (LatencyConfig.new false 0 none 1)
        (PacketLossConfig.new false 0 none 0)
        (BandwidthConfig.new false 0 8192))).2.log ∧
    0 = logSent Side.b (copy_loop
      ⟨fun _ => 1, fun _ => 0,
       fun i => if i = 0 then Except.ok 5 else Except.ok 0,
       fun _ => Except.ok 0, fun _ => none, fun _ => 0⟩
      [Side.a, Side.a]
      (initLoopState (LatencyConfig.new false 0 none 1)
        (PacketLossConfig.new false 0 none 0)
        (BandwidthConfig.new false 0 8192))).2.log ∧
    (∃ s, (copy_loop
      ⟨fun _ => 1, fun _ => 0,
       fun i => if i = 0 then Except.ok 5 else Except.ok 0,
       fun _ => Except.ok 0, fun _ => none, fun _ => 0⟩
      [Side.a, Side.a]
      (initLoopState (LatencyConfig.new false 0 none 1)
        (PacketLossConfig.new false 0 none 0)
        (BandwidthConfig.new false 0 8192))).2.log.getLast? =
      some (FwdAction.readEof s)) ∧
    errFree (copy_loop
      ⟨fun _ => 1, fun _ => 0,
       fun i => if i = 0 then Except.ok 5 else Except.ok 0,
       fun _ => Except.ok 0, fun _ => none, fun _ => 0⟩
      [Side.a, Side.a]
      (initLoopState (LatencyConfig.new false 0 none 1)
        (PacketLossConfig.new false 0 none 0)
        (BandwidthConfig.new false 0 8192))).2.log :=
  (C5_loop_return_spec
    ⟨fun _ => 1, fun _ => 0,
     fun i => if i = 0 then Except.ok 5 else Except.ok 0,
     fun _ => Except.ok 0, fun _ => none, fun _ => 0⟩
    [Side.a, Side.a] (LatencyConfig.new false 0 none 1)
    (PacketLossConfig.new false 0 none 0)
    (BandwidthConfig.new false 0 8192)).1 5 0 (by decide)
